import Mathlib

/-!
Verification development for the `ts-remove-unused` core
(`removeUnusedExport.ts`, here `src/unnamed/part_000`, and `removeExport.ts`).

The TypeScript AST is shallowly embedded: every supported node kind carries
exactly the attributes the source reads (positions, widths, texts, module
specifiers).  A source file is represented by the document-order sequence of
nodes its visitor yields (wildcard re-exports and removal candidates); the
external language service and module resolver are capability records, as the
spec's design notes prescribe.  File contents are lists of characters and the
file store is a map from path to content.
-/

namespace TsRemoveUnused

/-- JS `String.prototype.startsWith` on character lists (helper for `includesStr`). -/
def prefixMatch : List Char → List Char → Bool
  | [], _ => true
  | _ :: _, [] => false
  | a :: as, b :: bs => a = b && prefixMatch as bs

/-- JS `hay.includes(needle)` on character lists
(used for the skip-comment test `getLeadingComment(node).includes(IGNORE_COMMENT)`). -/
def includesStr (hay needle : List Char) : Bool :=
  match hay with
  | [] => needle.isEmpty
  | _ :: t => prefixMatch needle hay || includesStr t needle

/-- `const IGNORE_COMMENT = 'ts-remove-unused-skip'` -/
def IGNORE_COMMENT : List Char := "ts-remove-unused-skip".data

/-- A `ts.TextSpan`: start offset and length. -/
structure TextSpan where
  start : Nat
  length : Nat
  deriving DecidableEq

/-- One occurrence in a reference set (`ts.ReferenceEntry`): its text span. -/
structure SymbolRef where
  textSpan : TextSpan
  deriving DecidableEq

/-- A `ts.ReferencedSymbol`: the defining file of the symbol
(`definition.fileName`) together with its reference occurrences. -/
structure ReferencedSymbol where
  definitionFileName : String
  references : List SymbolRef
  deriving DecidableEq

/-- A string-literal module specifier node: `.text` is the literal's value,
`srcText` its quoted source text (`getText()`). -/
structure ModuleSpec where
  text : String
  srcText : List Char
  deriving DecidableEq

/-- Geometry of an `ts.ExportDeclaration` (`node.parent.parent` of a specifier):
full/trimmed spans, source text, optional module specifier, and the `getText()`
of each specifier in its export clause (`node.parent.elements`). -/
structure ExportDeclGeom where
  fullStart : Nat
  fullWidth : Nat
  start : Nat
  width : Nat
  text : List Char
  moduleSpecifier : Option ModuleSpec
  elements : List String
  deriving DecidableEq

/-- An `ts.ExportSpecifier` node: its span, its `getText()`, and its enclosing
export declaration. -/
structure ExportSpecifierNode where
  start : Nat
  endPos : Nat
  text : String
  parentDecl : ExportDeclGeom
  deriving DecidableEq

/-- Geometry shared by the declaration kinds whose export marker is stripped:
`getStart()`, the start of the first `SyntaxList` child (which holds the
`export` / `export default` modifiers) and the start of the following child,
plus the first `Identifier` descendant's text (`findFirstNodeOfKind`). -/
structure NamedDeclGeom where
  start : Nat
  syntaxListStart : Nat
  nextSiblingStart : Nat
  identifier : Option String
  deriving DecidableEq

/-- Geometry for whole-node removal (`getFullStart()` / `getFullWidth()` /
`getStart()` / `getText()`). -/
structure FullGeom where
  fullStart : Nat
  fullWidth : Nat
  start : Nat
  text : List Char
  deriving DecidableEq

/-- The `SupportedNode` union of the source.  A variable statement carries the
`getStart()` of each of its variable declarations in document order; a
function/class carries `some` full-span geometry exactly when it has no direct
`Identifier` child (anonymous default export); an export assignment carries the
position of its `default` keyword when present. -/
inductive SupportedNode where
  | variableStatement (geom : NamedDeclGeom) (declStarts : List Nat)
  | functionDeclaration (geom : NamedDeclGeom) (anonymous : Option FullGeom)
  | interfaceDeclaration (geom : NamedDeclGeom)
  | typeAliasDeclaration (geom : NamedDeclGeom)
  | classDeclaration (geom : NamedDeclGeom) (anonymous : Option FullGeom)
  | exportAssignment (geom : FullGeom) (defaultKeywordStart : Option Nat)
  | exportSpecifier (spec : ExportSpecifierNode)
  deriving DecidableEq

/-- A candidate yielded by the visitor: the node plus the concatenated text of
its leading comment ranges (`getLeadingComment`). -/
structure CandidateNode where
  node : SupportedNode
  leadingComment : List Char
  deriving DecidableEq

/-- One item of the document-order sequence the `getUnusedExports` visitor
walks: either an `export * from '...'` declaration (export declaration with no
export clause) or a supported candidate node. -/
inductive FileItem where
  | starReexport
  | candidate (c : CandidateNode)
  deriving DecidableEq

/-- A parsed source file: its full text and the visitor's item sequence. -/
structure FileView where
  fullText : List Char
  items : List FileItem
  deriving DecidableEq

/-- The slice of `ts.LanguageService` the source consumes:
`findReferences(fileName, position)`. -/
structure LanguageService where
  findReferences : String → Nat → Option (List ReferencedSymbol)

/-- The slice of `ts.Program` the source consumes: module resolution
(`getFileFromModuleSpecifierText`, i.e. `ts.resolveModuleName` against the
file service) and `getSourceFile`. -/
structure ProgramModel where
  resolveModule : String → String → Option String
  getSourceFile : String → Option FileView

/-- `findReferences` of the source: the query position is the first variable
declaration for a variable statement, the node's own start for
function/interface/type-alias/class/specifier, and the `default` keyword for an
export assignment; `undefined` when the identifying node is absent. -/
def findReferences (fileName : String) (service : LanguageService) :
    SupportedNode → Option (List ReferencedSymbol)
  | SupportedNode.variableStatement _ declStarts =>
    match declStarts with
    | [] => none
    | d :: _ => service.findReferences fileName d
  | SupportedNode.functionDeclaration geom _ => service.findReferences fileName geom.start
  | SupportedNode.interfaceDeclaration geom => service.findReferences fileName geom.start
  | SupportedNode.typeAliasDeclaration geom => service.findReferences fileName geom.start
  | SupportedNode.classDeclaration geom _ => service.findReferences fileName geom.start
  | SupportedNode.exportSpecifier spec => service.findReferences fileName spec.start
  | SupportedNode.exportAssignment _ dk =>
    match dk with
    | none => none
    | some d => service.findReferences fileName d

/-- An element of `getReexportInFile`'s result: an export specifier whose
export declaration has a string-literal module specifier. -/
structure ReexportSpecifier where
  start : Nat
  endPos : Nat
  moduleSpecifierText : String
  deriving DecidableEq

/-- `getReexportInFile`: all export specifiers of the file whose enclosing
export declaration has a (string-literal) module specifier, in document order. -/
def getReexportInFile (view : FileView) : List ReexportSpecifier :=
  view.items.filterMap fun item =>
    match item with
    | FileItem.candidate c =>
      match c.node with
      | SupportedNode.exportSpecifier spec =>
        match spec.parentDecl.moduleSpecifier with
        | some m => some ⟨spec.start, spec.endPos, m.text⟩
        | none => none
      | _ => none
    | _ => none

/-- `Object.fromEntries(references.map(v => [v.definition.fileName, v]))[file]`:
for duplicate keys the later entry wins, hence the left fold. -/
def lookupReferencedSymbol (references : List ReferencedSymbol) (file : String) :
    Option ReferencedSymbol :=
  references.foldl (fun acc v => if v.definitionFileName = file then some v else acc) none

/-- The `while (specifier)` loop of `getAncestorFiles`.  JS treats the empty
string as falsy, so an empty specifier ends the walk successfully.  `fuel`
bounds the walk: the source loop does not terminate on an unbounded re-export
chain, and every claim concerns runs that finish within some bound. -/
def ancestorLoop (program : ProgramModel) (references : List ReferencedSymbol) :
    Nat → String → String → List String → Option (List String)
  | 0, specifier, _, result => if specifier = "" then some result else none
  | fuel + 1, specifier, currentFile, result =>
    if specifier = "" then some result
    else
      match program.resolveModule specifier currentFile with
      | none => none
      | some origin =>
        let result' := if result.contains origin then result else result ++ [origin]
        match lookupReferencedSymbol references origin with
        | none => none
        | some referencedSymbol =>
          match program.getSourceFile origin with
          | none => none
          | some sourceFile =>
            match referencedSymbol.references.head? with
            | none => some result'
            | some firstRef =>
              match (getReexportInFile sourceFile).find? (fun r =>
                  r.start == firstRef.textSpan.start &&
                  r.endPos == firstRef.textSpan.start + firstRef.textSpan.length) with
              | none => some result'
              | some reexportNode =>
                ancestorLoop program references fuel
                  reexportNode.moduleSpecifierText origin result'

/-- `getAncestorFiles`: `null` when the specifier's export declaration has no
string-literal module specifier, otherwise the chain walk from its text. -/
def getAncestorFiles (program : ProgramModel) (references : List ReferencedSymbol)
    (fileName : String) (fuel : Nat) (node : ExportSpecifierNode) :
    Option (List String) :=
  match node.parentDecl.moduleSpecifier with
  | none => none
  | some m => ancestorLoop program references fuel m.text fileName []

/-- The verdict step for a plain declaration or default export: count the
references of entries defined outside the candidate's file; any makes the file
used, none makes the candidate removable. -/
def plainVerdict (fileName : String) (references : List ReferencedSymbol)
    (acc : List CandidateNode × Bool) (c : CandidateNode) :
    List CandidateNode × Bool :=
  let count := ((references.filter fun v =>
      v.definitionFileName != fileName).flatMap ReferencedSymbol.references).length
  if count > 0 then (acc.1, true) else (acc.1 ++ [c], acc.2)

/-- The verdict step for a forwarding export specifier with resolved ancestry:
references defined outside both the file and the ancestry set count as usage. -/
def specifierVerdict (fileName : String) (references : List ReferencedSymbol)
    (ancestors : List String) (acc : List CandidateNode × Bool) (c : CandidateNode) :
    List CandidateNode × Bool :=
  let count := ((references.filter fun v =>
      v.definitionFileName != fileName &&
        !(ancestors.contains v.definitionFileName)).flatMap
      ReferencedSymbol.references).length
  if count > 0 then (acc.1, true) else (acc.1 ++ [c], acc.2)

/-- One step of the `getUnusedExports` visitor over the item sequence,
threading the `(nodes, isUsed)` accumulator. -/
def visitItem (service : LanguageService) (program : ProgramModel) (fileName : String)
    (fuel : Nat) (acc : List CandidateNode × Bool) :
    FileItem → List CandidateNode × Bool
  | FileItem.starReexport => (acc.1, true)
  | FileItem.candidate c =>
    if includesStr c.leadingComment IGNORE_COMMENT then (acc.1, true)
    else
      match findReferences fileName service c.node with
      | none => acc
      | some references =>
        match c.node with
        | SupportedNode.exportSpecifier spec =>
          match spec.parentDecl.moduleSpecifier with
          | some _ =>
            match getAncestorFiles program references fileName fuel spec with
            | none => (acc.1, true)
            | some ancestors => specifierVerdict fileName references ancestors acc c
          | none => plainVerdict fileName references acc c
        | _ => plainVerdict fileName references acc c

/-- `getUnusedExports`: fold the visitor over the file's item sequence,
returning the removable candidates in document order and the overall-used
flag. -/
def getUnusedExports (service : LanguageService) (program : ProgramModel)
    (fileName : String) (items : List FileItem) (fuel : Nat) :
    List CandidateNode × Bool :=
  items.foldl (visitItem service program fileName fuel) ([], false)

/-- A `ts.TextChange`: replacement text and the span it replaces. -/
structure TextChange where
  newText : List Char
  span : TextSpan
  deriving DecidableEq

/-- Apply one text change to the file's current text. -/
def applySingleChange (content : List Char) (tc : TextChange) : List Char :=
  content.take tc.span.start ++ tc.newText ++ content.drop (tc.span.start + tc.span.length)

/-- Insertion step for ordering changes by descending start offset. -/
def insertByStartDesc (tc : TextChange) : List TextChange → List TextChange
  | [] => [tc]
  | t :: ts =>
    if t.span.start ≤ tc.span.start then tc :: t :: ts else t :: insertByStartDesc tc ts

/-- Order changes by descending start offset. -/
def sortByStartDesc (changes : List TextChange) : List TextChange :=
  changes.foldr insertByStartDesc []

/-- Modelled from the spec: `applyTextChanges` (its source file is not under
`src/`) applies a batch of non-overlapping `(span, replacement)` pairs against
the file's current full text; applying in descending start order keeps every
span valid against the original offsets. -/
def applyTextChanges (content : List Char) (changes : List TextChange) : List Char :=
  (sortByStartDesc changes).foldl applySingleChange content

/-- Modelled from the spec: the `ts.createPrinter` output for an export
declaration, trimmed, as `getUpdatedExportDeclaration` returns it — the clause
with its remaining specifiers in order, then the `from` clause when present. -/
def printExportDeclaration (elements : List String) (m : Option ModuleSpec) : List Char :=
  (if elements.isEmpty then "export \x7b\x7d".data
   else "export \x7b ".data ++ (String.intercalate ", " elements).data ++ " \x7d".data) ++
  (match m with
   | some ms => " from \"".data ++ ms.text.data ++ "\"".data
   | none => []) ++ ";".data

/-- `getUpdatedExportDeclaration`: re-print the export declaration with every
specifier whose text equals the removal target's text dropped. -/
def getUpdatedExportDeclaration (decl : ExportDeclGeom) (removeTargetText : String) :
    List Char :=
  printExportDeclaration (decl.elements.filter fun e => e ≠ removeTargetText)
    decl.moduleSpecifier

/-- The tracker code for an anonymous default function:
`getText().slice(0, indexOf(')') + 1)` (JS `indexOf` yields -1, so an absent
parenthesis gives the empty slice). -/
def sliceCodeFunction (text : List Char) : List Char :=
  match text.findIdx? (fun ch => ch = ')') with
  | some i => text.take (i + 1)
  | none => []

/-- The tracker code for an anonymous default class:
`getText().slice(0, indexOf('{') - 1)` (JS slice semantics for the negative
stop when the brace is absent or first). -/
def sliceCodeClass (text : List Char) : List Char :=
  match text.findIdx? (fun ch => ch = Char.ofNat 123) with
  | some i => if i = 0 then text.take (text.length - 1) else text.take (i - 1)
  | none => text.take (text.length - 2)

/-- The tracker code for a specifier removed from a multi-item clause:
the template `export { <specifier> }<from clause>;`. -/
def specifierRemovalCode (spec : ExportSpecifierNode) : List Char :=
  "export \x7b ".data ++ spec.text.data ++ " \x7d".data ++
  (match spec.parentDecl.moduleSpecifier with
   | some m => " from ".data ++ m.srcText
   | none => []) ++ ";".data

/-- An `editTracker.removeExport` notification: position and removed code. -/
structure RemovalEvent where
  position : Nat
  code : List Char
  deriving DecidableEq

/-- The export-marker removal change: delete from the modifier `SyntaxList`'s
start up to the start of the following child. -/
def markerChange (geom : NamedDeclGeom) : TextChange :=
  ⟨[], ⟨geom.syntaxListStart, geom.nextSiblingStart - geom.syntaxListStart⟩⟩

/-- The tracker notification for an export-marker removal: the node's start and
its first identifier's text (empty when absent). -/
def markerEvent (geom : NamedDeclGeom) : RemovalEvent :=
  ⟨geom.start, (geom.identifier.getD "").data⟩

/-- The per-node edit loop of `getTextChanges`.  A specifier that is the sole
element of its clause deletes the whole declaration and the loop continues; a
specifier among siblings pushes one regenerated-clause change and aborts the
batch (the `if (aborted) break` of the source); export assignments and
anonymous default declarations delete their full span; every other kind strips
its export marker.  Returns the changes, the removal notifications, and the
aborted flag. -/
def gtcNodes : List CandidateNode → List TextChange × List RemovalEvent × Bool
  | [] => ([], [], false)
  | c :: rest =>
    match c.node with
    | SupportedNode.exportSpecifier spec =>
      if spec.parentDecl.elements.length = 1 then
        let r := gtcNodes rest
        (⟨[], ⟨spec.parentDecl.fullStart, spec.parentDecl.fullWidth⟩⟩ :: r.1,
         ⟨spec.parentDecl.start, spec.parentDecl.text⟩ :: r.2.1, r.2.2)
      else
        ([⟨getUpdatedExportDeclaration spec.parentDecl spec.text,
            ⟨spec.parentDecl.start, spec.parentDecl.width⟩⟩],
         [⟨spec.start, specifierRemovalCode spec⟩], true)
    | SupportedNode.exportAssignment geom _ =>
      let r := gtcNodes rest
      (⟨[], ⟨geom.fullStart, geom.fullWidth⟩⟩ :: r.1,
       ⟨geom.start, geom.text⟩ :: r.2.1, r.2.2)
    | SupportedNode.functionDeclaration geom anonymous =>
      match anonymous with
      | some f =>
        let r := gtcNodes rest
        (⟨[], ⟨f.fullStart, f.fullWidth⟩⟩ :: r.1,
         ⟨f.start, sliceCodeFunction f.text⟩ :: r.2.1, r.2.2)
      | none =>
        let r := gtcNodes rest
        (markerChange geom :: r.1, markerEvent geom :: r.2.1, r.2.2)
    | SupportedNode.classDeclaration geom anonymous =>
      match anonymous with
      | some f =>
        let r := gtcNodes rest
        (⟨[], ⟨f.fullStart, f.fullWidth⟩⟩ :: r.1,
         ⟨f.start, sliceCodeClass f.text⟩ :: r.2.1, r.2.2)
      | none =>
        let r := gtcNodes rest
        (markerChange geom :: r.1, markerEvent geom :: r.2.1, r.2.2)
    | SupportedNode.variableStatement geom _ =>
      let r := gtcNodes rest
      (markerChange geom :: r.1, markerEvent geom :: r.2.1, r.2.2)
    | SupportedNode.interfaceDeclaration geom =>
      let r := gtcNodes rest
      (markerChange geom :: r.1, markerEvent geom :: r.2.1, r.2.2)
    | SupportedNode.typeAliasDeclaration geom =>
      let r := gtcNodes rest
      (markerChange geom :: r.1, markerEvent geom :: r.2.1, r.2.2)

/-- The result record of `getTextChanges`: the edit batch, `done = !aborted`,
the file's overall-used flag, and the removal notifications fired. -/
structure GtcResult where
  changes : List TextChange
  done : Bool
  isUsed : Bool
  events : List RemovalEvent
  deriving DecidableEq

/-- `getTextChanges`: classify the file's items, then build one batch of edits
from the removable candidates. -/
def getTextChanges (service : LanguageService) (program : ProgramModel)
    (fileName : String) (items : List FileItem) (fuel : Nat) : GtcResult :=
  let scan := getUnusedExports service program fileName items fuel
  let r := gtcNodes scan.1
  ⟨r.1, !r.2.2, scan.2, r.2.1⟩

/-- Classification predicate: the candidate kinds the spec calls a plain
declaration or default export. -/
def isPlainDeclarationOrDefault : SupportedNode → Bool
  | SupportedNode.exportSpecifier _ => false
  | _ => true

/-- Kind test for export specifiers. -/
def isSpecifierNode : SupportedNode → Bool
  | SupportedNode.exportSpecifier _ => true
  | _ => false

/-- Kind test for class declarations. -/
def isClassNode : SupportedNode → Bool
  | SupportedNode.classDeclaration _ _ => true
  | _ => false

/-- The candidates that reach the export-marker-stripping path of
`getTextChanges`, together with their marker geometry. -/
def namedDeclPath : SupportedNode → Option NamedDeclGeom
  | SupportedNode.variableStatement geom _ => some geom
  | SupportedNode.functionDeclaration geom none => some geom
  | SupportedNode.functionDeclaration _ (some _) => none
  | SupportedNode.interfaceDeclaration geom => some geom
  | SupportedNode.typeAliasDeclaration geom => some geom
  | SupportedNode.classDeclaration geom none => some geom
  | SupportedNode.classDeclaration _ (some _) => none
  | SupportedNode.exportAssignment _ _ => none
  | SupportedNode.exportSpecifier _ => none

/-- Modelled from the spec: the file store (its source file is not under
`src/`) — a map from path to current full text with synchronous read, write,
delete and existence. -/
abbrev FileStore := String → Option (List Char)

/-- `fileService.set` -/
def storeSet (store : FileStore) (file : String) (content : List Char) : FileStore :=
  fun f => if f = file then some content else store f

/-- `fileService.delete` -/
def storeDelete (store : FileStore) (file : String) : FileStore :=
  fun f => if f = file then none else store f

/-- The project environment of the removal driver: parsing and the analysis
service's answers as functions of the current file store, plus the fuel bound
for re-export ancestry walks.  Re-deriving them from the store on every pass
models the re-parse/re-resolve discipline of the source. -/
structure DriverEnv where
  parse : FileStore → String → Option FileView
  findRefs : FileStore → String → Nat → Option (List ReferencedSymbol)
  resolveModule : FileStore → String → String → Option String
  ancestryFuel : Nat

/-- The language service the driver sees at a given store state. -/
def envService (env : DriverEnv) (store : FileStore) : LanguageService :=
  ⟨env.findRefs store⟩

/-- The program the driver sees at a given store state. -/
def envProgram (env : DriverEnv) (store : FileStore) : ProgramModel :=
  ⟨env.resolveModule store, env.parse store⟩

/-- One Scanning step of the driver: re-parse the target file from the current
store and run `getTextChanges`; `none` models the fatal `source file not
found`. -/
def scanFile (env : DriverEnv) (store : FileStore) (file : String) : Option GtcResult :=
  (env.parse store file).map fun view =>
    getTextChanges (envService env store) (envProgram env store) file
      view.items env.ancestryFuel

/-- `editTracker` notifications, in the order they fire. -/
inductive TrackerEvent where
  | start (file : String) (text : List Char)
  | removeExport (file : String) (position : Nat) (code : List Char)
  | delete (file : String)
  | endSession (file : String)
  deriving DecidableEq

/-- The `do … while` loop of `removeUnusedExport` for one file: scan, apply the
batch to the running content, write it to the store, and repeat until a batch
reports `done`.  Returns the final store, final content, the last scan's
overall-used flag, and the removal notifications in firing order; `fuel`
bounds the designed fixed-point iteration. -/
def removeLoop (env : DriverEnv) (file : String) :
    Nat → FileStore → List Char →
    Option (FileStore × List Char × Bool × List RemovalEvent)
  | 0, _, _ => none
  | fuel + 1, store, content =>
    match scanFile env store file with
    | none => none
    | some r =>
      if r.done then
        some (storeSet store file (applyTextChanges content r.changes),
          applyTextChanges content r.changes, r.isUsed, r.events)
      else
        match removeLoop env file fuel
            (storeSet store file (applyTextChanges content r.changes))
            (applyTextChanges content r.changes) with
        | none => none
        | some (st, ct, u, evs) => some (st, ct, u, r.events ++ evs)

/-- Processing of one target file by `removeUnusedExport` (with the secondary
code-fix pass disabled): skip silently when the program has no such source
file; otherwise fire `start`, run the removal loop, then either delete the file
(unused and deletion requested — the source `continue`s before `end`) or write
the final content and fire `end`.  Returns the new store and the tracker
trace. -/
def processFile (env : DriverEnv) (deleteUnusedFile : Bool) (loopFuel : Nat)
    (store : FileStore) (file : String) :
    Option (FileStore × List TrackerEvent) :=
  match env.parse store file with
  | none => some (store, [])
  | some view =>
    match removeLoop env file loopFuel store ((store file).getD []) with
    | none => none
    | some (store', content', isUsed, removals) =>
      if !isUsed && deleteUnusedFile then
        some (storeDelete store' file,
          (TrackerEvent.start file view.fullText ::
            removals.map fun ev => TrackerEvent.removeExport file ev.position ev.code) ++
          [TrackerEvent.delete file])
      else
        some (storeSet store' file content',
          (TrackerEvent.start file view.fullText ::
            removals.map fun ev => TrackerEvent.removeExport file ev.position ev.code) ++
          [TrackerEvent.endSession file])

/-- `removeUnusedExport` over a list of target files, processed sequentially
against the shared store. -/
def removeUnusedExport (env : DriverEnv) (deleteUnusedFile : Bool) (loopFuel : Nat)
    (targetFiles : List String) (store : FileStore) :
    Option (FileStore × List TrackerEvent) :=
  targetFiles.foldl
    (fun acc file =>
      match acc with
      | none => none
      | some (st, evs) =>
        match processFile env deleteUnusedFile loopFuel st file with
        | none => none
        | some (st', evs') => some (st', evs ++ evs'))
    (some (store, []))

namespace RemoveExportModule

/-- `getFirstUnusedExport` of `removeExport.ts`: the first candidate (class
declarations are not targets there, and skip-marked nodes are excluded by its
`isTarget`) whose total flattened reference count is exactly 2 for an export
specifier, or otherwise exactly 1. -/
def getFirstUnusedExport (service : LanguageService) (fileName : String)
    (items : List CandidateNode) : Option CandidateNode :=
  items.findSome? fun c =>
    if isClassNode c.node then none
    else if includesStr c.leadingComment IGNORE_COMMENT then none
    else
      match findReferences fileName service c.node with
      | none => none
      | some references =>
        let count := (references.flatMap ReferencedSymbol.references).length
        if isSpecifierNode c.node && count == 2 then some c
        else if count == 1 then some c
        else none

end RemoveExportModule

/-! Concrete instances used to evaluate the model on explicit inputs. -/

/-- A program with no resolvable modules and no source files. -/
def emptyProgram : ProgramModel := ⟨fun _ _ => none, fun _ => none⟩

/-- A language service that answers no reference query. -/
def svcNone : LanguageService := ⟨fun _ _ => none⟩

/-- An exported interface declaration candidate. -/
def candInterface : CandidateNode := ⟨SupportedNode.interfaceDeclaration ⟨0, 0, 7, some "I"⟩, []⟩

/-- A reference set with a single same-file entry. -/
def refsSelfOnly : List ReferencedSymbol := [⟨"a.ts", [⟨⟨10, 1⟩⟩]⟩]

/-- A service answering every query with `refsSelfOnly`. -/
def svcSelfOnly : LanguageService := ⟨fun _ _ => some refsSelfOnly⟩

/-- A forwarding export specifier `export \x7b x \x7d from "./b";`. -/
def specForwarding : ExportSpecifierNode :=
  ⟨9, 10, "x",
   ⟨0, 25, 0, 25, "export \x7b x \x7d from \"./b\";".data,
    some ⟨"./b", "\"./b\"".data⟩, ["x"]⟩⟩

/-- The forwarding specifier as a candidate. -/
def candForwarding : CandidateNode := ⟨SupportedNode.exportSpecifier specForwarding, []⟩

/-- References for the forwarding specifier: only its own occurrence. -/
def refsForwarding : List ReferencedSymbol := [⟨"f.ts", [⟨⟨9, 1⟩⟩]⟩]

/-- A service answering every query with `refsForwarding`. -/
def svcForwarding : LanguageService := ⟨fun _ _ => some refsForwarding⟩

/-- An exported named function declaration candidate. -/
def candFunction : CandidateNode := ⟨SupportedNode.functionDeclaration ⟨0, 0, 7, some "f"⟩ none, []⟩

/-- A reference set with three same-file occurrences (total count 3). -/
def refsSameFileThree : List ReferencedSymbol := [⟨"a.ts", [⟨⟨0, 1⟩⟩, ⟨⟨5, 1⟩⟩, ⟨⟨9, 1⟩⟩]⟩]

/-- A service answering every query with `refsSameFileThree`. -/
def svcSameFileThree : LanguageService := ⟨fun _ _ => some refsSameFileThree⟩

/-- A sole export specifier with exactly the two mandatory references. -/
def candSpecifierTwo : CandidateNode :=
  ⟨SupportedNode.exportSpecifier ⟨5, 6, "y", ⟨0, 15, 0, 15, "export \x7b y \x7d;".data, none, ["y"]⟩⟩, []⟩

/-- A reference set whose flattened length is exactly 2. -/
def refsTwo : List ReferencedSymbol := [⟨"a.ts", [⟨⟨5, 1⟩⟩, ⟨⟨20, 1⟩⟩]⟩]

/-- A service answering every query with `refsTwo`. -/
def svcTwo : LanguageService := ⟨fun _ _ => some refsTwo⟩

/-- An exported type alias carrying the skip annotation in its leading comment. -/
def candSkip : CandidateNode :=
  ⟨SupportedNode.typeAliasDeclaration ⟨0, 0, 7, some "T"⟩, "// ts-remove-unused-skip".data⟩

/-- Marker geometry for `export function helper()\x7b\x7d` (marker span `[0, 7)`). -/
def geomHelper : NamedDeclGeom := ⟨0, 0, 7, some "helper"⟩

/-- The named function `helper` as a candidate. -/
def candHelper : CandidateNode := ⟨SupportedNode.functionDeclaration geomHelper none, []⟩

/-- Marker geometry for a multi-declaration variable statement. -/
def geomVar : NamedDeclGeom := ⟨0, 0, 7, some "a"⟩

/-- `export const a = …, b = …;` with variable declarations at 13 and 24. -/
def candVarMulti : CandidateNode := ⟨SupportedNode.variableStatement geomVar [13, 24], []⟩

/-- A service where the first variable (position 13) has only a same-file
reference while the second (position 24) is referenced from another file. -/
def svcVarMulti : LanguageService :=
  ⟨fun _ pos =>
    if pos = 13 then some [⟨"a.ts", [⟨⟨13, 1⟩⟩]⟩]
    else if pos = 24 then some [⟨"a.ts", [⟨⟨24, 1⟩⟩]⟩, ⟨"other.ts", [⟨⟨0, 1⟩⟩]⟩]
    else none⟩

/-- Full text of the wildcard re-export file. -/
def starText : List Char := "export * from \"./m\";".data

/-- The parsed wildcard re-export file. -/
def viewStar : FileView := ⟨starText, [FileItem.starReexport]⟩

/-- An environment whose parse of `s.ts` always contains the wildcard. -/
def envStar : DriverEnv :=
  ⟨fun _ f => if f = "s.ts" then some viewStar else none,
   fun _ _ _ => none, fun _ _ _ => none, 0⟩

/-- A store holding only `s.ts`. -/
def storeStar : FileStore := fun f => if f = "s.ts" then some starText else none

/-- Full text of a file with no exports at all. -/
def plainText : List Char := "const x = 1;".data

/-- The parsed export-less file: the visitor yields no items. -/
def viewNoExports : FileView := ⟨plainText, []⟩

/-- An environment whose parse of `a.ts` has no candidates (already
stabilized). -/
def envNoExports : DriverEnv :=
  ⟨fun _ f => if f = "a.ts" then some viewNoExports else none,
   fun _ _ _ => none, fun _ _ _ => none, 0⟩

/-- A store holding only `a.ts`. -/
def storeNoExports : FileStore := fun f => if f = "a.ts" then some plainText else none

/-! The `export \x7b a, b, c \x7d;` batch scenario. -/

/-- The initial clause text `export \x7b a, b, c \x7d;`. -/
def textABC : List Char := "export \x7b a, b, c \x7d;".data

/-- Geometry of the three-specifier export declaration. -/
def declABC : ExportDeclGeom := ⟨0, 19, 0, 19, textABC, none, ["a", "b", "c"]⟩

/-- Candidate for specifier `a` of `declABC`. -/
def candA0 : CandidateNode := ⟨SupportedNode.exportSpecifier ⟨9, 10, "a", declABC⟩, []⟩

/-- Candidate for specifier `b` of `declABC`. -/
def candB0 : CandidateNode := ⟨SupportedNode.exportSpecifier ⟨12, 13, "b", declABC⟩, []⟩

/-- Candidate for specifier `c` of `declABC`. -/
def candC0 : CandidateNode := ⟨SupportedNode.exportSpecifier ⟨15, 16, "c", declABC⟩, []⟩

/-- The parsed three-specifier file. -/
def viewABC : FileView :=
  ⟨textABC, [FileItem.candidate candA0, FileItem.candidate candB0, FileItem.candidate candC0]⟩

/-- The clause text after removing `b`: `export \x7b a, c \x7d;`. -/
def textAC : List Char := "export \x7b a, c \x7d;".data

/-- Geometry of the two-specifier declaration `a, c`. -/
def declAC : ExportDeclGeom := ⟨0, 16, 0, 16, textAC, none, ["a", "c"]⟩

/-- The parsed `a, c` file. -/
def viewAC : FileView :=
  ⟨textAC, [FileItem.candidate ⟨SupportedNode.exportSpecifier ⟨9, 10, "a", declAC⟩, []⟩,
            FileItem.candidate ⟨SupportedNode.exportSpecifier ⟨12, 13, "c", declAC⟩, []⟩]⟩

/-- References marking a specifier used from `other.ts`. -/
def refsUsedSpec : List ReferencedSymbol :=
  [⟨"f.ts", [⟨⟨9, 1⟩⟩]⟩, ⟨"other.ts", [⟨⟨0, 1⟩⟩]⟩]

/-- References marking a specifier with no outside consumer. -/
def refsUnusedSpec : List ReferencedSymbol := [⟨"f.ts", [⟨⟨12, 1⟩⟩]⟩]

/-- Environment for the only-`b`-unused scenario: `a` and `c` are referenced
from `other.ts` at every stage, `b` only from its own file. -/
def envOnlyB : DriverEnv :=
  ⟨fun st f =>
     if f = "f.ts" then
       match st "f.ts" with
       | some t => if t = textABC then some viewABC
                   else if t = textAC then some viewAC else none
       | none => none
     else none,
   fun st f pos =>
     if f = "f.ts" then
       if st "f.ts" = some textABC then
         if pos = 9 then some refsUsedSpec
         else if pos = 12 then some refsUnusedSpec
         else if pos = 15 then some refsUsedSpec
         else none
       else if st "f.ts" = some textAC then
         if pos = 9 then some refsUsedSpec
         else if pos = 12 then some refsUsedSpec
         else none
       else none
     else none,
   fun _ _ _ => none, 0⟩

/-- The initial store for both batch scenarios. -/
def storeABC : FileStore := fun f => if f = "f.ts" then some textABC else none

/-- The clause text after removing `a`: `export \x7b b, c \x7d;`. -/
def textBC : List Char := "export \x7b b, c \x7d;".data

/-- Geometry of the two-specifier declaration `b, c`. -/
def declBC : ExportDeclGeom := ⟨0, 16, 0, 16, textBC, none, ["b", "c"]⟩

/-- The parsed `b, c` file. -/
def viewBC : FileView :=
  ⟨textBC, [FileItem.candidate ⟨SupportedNode.exportSpecifier ⟨9, 10, "b", declBC⟩, []⟩,
            FileItem.candidate ⟨SupportedNode.exportSpecifier ⟨12, 13, "c", declBC⟩, []⟩]⟩

/-- The clause text after also removing `b`: `export \x7b c \x7d;`. -/
def textC : List Char := "export \x7b c \x7d;".data

/-- Geometry of the single-specifier declaration `c`. -/
def declC : ExportDeclGeom := ⟨0, 13, 0, 13, textC, none, ["c"]⟩

/-- The parsed sole-`c` file. -/
def viewC : FileView :=
  ⟨textC, [FileItem.candidate ⟨SupportedNode.exportSpecifier ⟨9, 10, "c", declC⟩, []⟩]⟩

/-- Environment for the all-unused scenario: every specifier has only its
same-file occurrence. -/
def envAllUnused : DriverEnv :=
  ⟨fun st f =>
     if f = "f.ts" then
       match st "f.ts" with
       | some t => if t = textABC then some viewABC
                   else if t = textBC then some viewBC
                   else if t = textC then some viewC else none
       | none => none
     else none,
   fun _ _ _ => some refsUnusedSpec,
   fun _ _ _ => none, 0⟩

/-! Helper lemmas about the classifier. -/

theorem plainVerdict_snd (fileName : String) (refs : List ReferencedSymbol)
    (acc : List CandidateNode × Bool) (c : CandidateNode) (h : acc.2 = true) :
    (plainVerdict fileName refs acc c).2 = true := by
  simp only [plainVerdict]
  split
  · rfl
  · exact h

theorem specifierVerdict_snd (fileName : String) (refs : List ReferencedSymbol)
    (ancestors : List String) (acc : List CandidateNode × Bool) (c : CandidateNode)
    (h : acc.2 = true) : (specifierVerdict fileName refs ancestors acc c).2 = true := by
  simp only [specifierVerdict]
  split
  · rfl
  · exact h

theorem visitItem_snd_mono (service : LanguageService) (program : ProgramModel)
    (fileName : String) (fuel : Nat) (acc : List CandidateNode × Bool) (item : FileItem)
    (h : acc.2 = true) : (visitItem service program fileName fuel acc item).2 = true := by
  cases item with
  | starReexport => rfl
  | candidate d =>
    simp only [visitItem]
    repeat' split
    all_goals first
      | rfl
      | exact h
      | exact plainVerdict_snd _ _ _ _ h
      | exact specifierVerdict_snd _ _ _ _ _ h

theorem foldl_visitItem_snd_mono (service : LanguageService) (program : ProgramModel)
    (fileName : String) (fuel : Nat) :
    ∀ (items : List FileItem) (acc : List CandidateNode × Bool), acc.2 = true →
      (items.foldl (visitItem service program fileName fuel) acc).2 = true := by
  intro items
  induction items with
  | nil => intro acc h; exact h
  | cons item rest ih =>
    intro acc h
    exact ih _ (visitItem_snd_mono service program fileName fuel acc item h)

theorem foldl_visitItem_star (service : LanguageService) (program : ProgramModel)
    (fileName : String) (fuel : Nat) :
    ∀ (items : List FileItem) (acc : List CandidateNode × Bool),
      FileItem.starReexport ∈ items →
      (items.foldl (visitItem service program fileName fuel) acc).2 = true := by
  intro items
  induction items with
  | nil => intro acc h; cases h
  | cons item rest ih =>
    intro acc h
    rcases List.mem_cons.mp h with h | h
    · subst h
      exact foldl_visitItem_snd_mono service program fileName fuel rest _ rfl
    · exact ih _ h

theorem getUnusedExports_star (service : LanguageService) (program : ProgramModel)
    (fileName : String) (items : List FileItem) (fuel : Nat)
    (h : FileItem.starReexport ∈ items) :
    (getUnusedExports service program fileName items fuel).2 = true :=
  foldl_visitItem_star service program fileName fuel items ([], false) h

theorem plainVerdict_not_pushed (fileName : String) (refs : List ReferencedSymbol)
    (acc : List CandidateNode × Bool) (c d : CandidateNode)
    (hne : c ≠ d) (h : c ∉ acc.1) : c ∉ (plainVerdict fileName refs acc d).1 := by
  simp only [plainVerdict]
  split
  · exact h
  · simp only [List.mem_append, List.mem_singleton]
    rintro (hc | hc)
    · exact h hc
    · exact hne hc

theorem specifierVerdict_not_pushed (fileName : String) (refs : List ReferencedSymbol)
    (ancestors : List String) (acc : List CandidateNode × Bool) (c d : CandidateNode)
    (hne : c ≠ d) (h : c ∉ acc.1) : c ∉ (specifierVerdict fileName refs ancestors acc d).1 := by
  simp only [specifierVerdict]
  split
  · exact h
  · simp only [List.mem_append, List.mem_singleton]
    rintro (hc | hc)
    · exact h hc
    · exact hne hc

theorem visitItem_not_pushed (service : LanguageService) (program : ProgramModel)
    (fileName : String) (fuel : Nat) (c : CandidateNode)
    (hmark : includesStr c.leadingComment IGNORE_COMMENT = true)
    (acc : List CandidateNode × Bool) (item : FileItem) (h : c ∉ acc.1) :
    c ∉ (visitItem service program fileName fuel acc item).1 := by
  cases item with
  | starReexport => exact h
  | candidate d =>
    by_cases hd : includesStr d.leadingComment IGNORE_COMMENT = true
    · simp only [visitItem, if_pos hd]; exact h
    · have hne : c ≠ d := fun he => hd (he ▸ hmark)
      simp only [visitItem, if_neg hd]
      repeat' split
      all_goals first
        | exact h
        | exact plainVerdict_not_pushed _ _ _ _ _ hne h
        | exact specifierVerdict_not_pushed _ _ _ _ _ _ hne h

theorem foldl_visitItem_not_pushed (service : LanguageService) (program : ProgramModel)
    (fileName : String) (fuel : Nat) (c : CandidateNode)
    (hmark : includesStr c.leadingComment IGNORE_COMMENT = true) :
    ∀ (items : List FileItem) (acc : List CandidateNode × Bool), c ∉ acc.1 →
      c ∉ (items.foldl (visitItem service program fileName fuel) acc).1 := by
  intro items
  induction items with
  | nil => intro acc h; exact h
  | cons item rest ih =>
    intro acc h
    exact ih _ (visitItem_not_pushed service program fileName fuel c hmark acc item h)

theorem getUnusedExports_singleton_plain (service : LanguageService) (program : ProgramModel)
    (fileName : String) (fuel : Nat) (c : CandidateNode) (refs : List ReferencedSymbol)
    (hplain : isPlainDeclarationOrDefault c.node = true)
    (hskip : includesStr c.leadingComment IGNORE_COMMENT = false)
    (hrefs : findReferences fileName service c.node = some refs) :
    getUnusedExports service program fileName [FileItem.candidate c] fuel =
      plainVerdict fileName refs ([], false) c := by
  show visitItem service program fileName fuel ([], false) (FileItem.candidate c) = _
  have hskip' : ¬ includesStr c.leadingComment IGNORE_COMMENT = true := by
    simp [hskip]
  simp only [visitItem, if_neg hskip']
  rw [hrefs]
  obtain ⟨nd, cm⟩ := c
  cases nd with
  | exportSpecifier spec => exact absurd hplain (by simp [isPlainDeclarationOrDefault])
  | variableStatement g ds => rfl
  | functionDeclaration g a => rfl
  | interfaceDeclaration g => rfl
  | typeAliasDeclaration g => rfl
  | classDeclaration g a => rfl
  | exportAssignment g dk => rfl

theorem plainVerdict_unused_iff (fileName : String) (refs : List ReferencedSymbol)
    (c : CandidateNode) :
    (plainVerdict fileName refs ([], false) c).1 = [c] ↔
      (refs.filter fun v => v.definitionFileName != fileName).flatMap
        ReferencedSymbol.references = [] := by
  simp only [plainVerdict]
  by_cases hflat : (refs.filter fun v => v.definitionFileName != fileName).flatMap
      ReferencedSymbol.references = []
  · simp [hflat]
  · rw [if_pos (by simpa using List.length_pos.mpr hflat)]
    simp [hflat]

theorem applyTextChanges_nil (content : List Char) : applyTextChanges content [] = content := rfl

/-! Claim theorems. -/

/-- C1: for a plain exported declaration or default export, the analyzer
classifies the candidate as unused exactly when the partition of its reference
set defined outside its own file is empty; same-file references never block
the unused verdict since the criterion never inspects them. -/
theorem plain_unused_iff_outside_empty (service : LanguageService) (program : ProgramModel)
    (fileName : String) (fuel : Nat) (c : CandidateNode) (refs : List ReferencedSymbol)
    (hplain : isPlainDeclarationOrDefault c.node = true)
    (hskip : includesStr c.leadingComment IGNORE_COMMENT = false)
    (hrefs : findReferences fileName service c.node = some refs) :
    (getUnusedExports service program fileName [FileItem.candidate c] fuel).1 = [c] ↔
      (refs.filter fun v => v.definitionFileName != fileName).flatMap
        ReferencedSymbol.references = [] := by
  rw [getUnusedExports_singleton_plain service program fileName fuel c refs hplain hskip hrefs]
  exact plainVerdict_unused_iff fileName refs c

/-- Witness for C1: an exported interface with only a same-file reference is
classified unused. -/
theorem plain_unused_iff_outside_empty_witness :
    (getUnusedExports svcSelfOnly emptyProgram "a.ts" [FileItem.candidate candInterface] 0).1 =
      [candInterface] :=
  (plain_unused_iff_outside_empty svcSelfOnly emptyProgram "a.ts" 0 candInterface refsSelfOnly
    (by decide) (by decide) (by decide)).mpr (by decide)

/-- C2: when re-export ancestry resolution fails (`getAncestorFiles` returns
`null`), the forwarding specifier's verdict is `used` and it is not collected
for removal. -/
theorem failed_ancestry_marks_used (service : LanguageService) (program : ProgramModel)
    (fileName : String) (fuel : Nat) (c : CandidateNode) (spec : ExportSpecifierNode)
    (m : ModuleSpec) (refs : List ReferencedSymbol)
    (hnode : c.node = SupportedNode.exportSpecifier spec)
    (hmod : spec.parentDecl.moduleSpecifier = some m)
    (hskip : includesStr c.leadingComment IGNORE_COMMENT = false)
    (hrefs : findReferences fileName service c.node = some refs)
    (hanc : getAncestorFiles program refs fileName fuel spec = none) :
    getUnusedExports service program fileName [FileItem.candidate c] fuel = ([], true) := by
  obtain ⟨nd, cm⟩ := c
  simp only at hnode
  subst hnode
  show visitItem service program fileName fuel ([], false)
    (FileItem.candidate ⟨SupportedNode.exportSpecifier spec, cm⟩) = ([], true)
  have hskip' : ¬ includesStr cm IGNORE_COMMENT = true := by simp_all
  simp only [visitItem, if_neg hskip']
  rw [hrefs]
  repeat' split
  all_goals simp_all

/-- Witness for C2: a forwarding specifier whose module specifier does not
resolve is conservatively kept. -/
theorem failed_ancestry_marks_used_witness :
    getUnusedExports svcForwarding emptyProgram "f.ts" [FileItem.candidate candForwarding] 1 =
      ([], true) :=
  failed_ancestry_marks_used svcForwarding emptyProgram "f.ts" 1 candForwarding specForwarding
    ⟨"./b", "\"./b\"".data⟩ refsForwarding (by decide) (by decide) (by decide) (by decide)
    (by decide)

/-- C6: a candidate whose leading comment contains the skip marker makes the
file used without consulting the reference index (the result is the same for
every service), and the candidate is never collected for removal in any item
sequence. -/
theorem skip_annotation_forces_used (c : CandidateNode)
    (hmark : includesStr c.leadingComment IGNORE_COMMENT = true) :
    (∀ (service : LanguageService) (program : ProgramModel) (fileName : String) (fuel : Nat),
       getUnusedExports service program fileName [FileItem.candidate c] fuel = ([], true)) ∧
    (∀ (service : LanguageService) (program : ProgramModel) (fileName : String) (fuel : Nat)
       (items : List FileItem),
       c ∉ (getUnusedExports service program fileName items fuel).1) := by
  constructor
  · intro service program fileName fuel
    show visitItem service program fileName fuel ([], false) (FileItem.candidate c) = ([], true)
    simp only [visitItem, if_pos hmark]
  · intro service program fileName fuel items
    exact foldl_visitItem_not_pushed service program fileName fuel c hmark items ([], false)
      (by simp)

/-- Witness for C6: the skip-marked type alias forces `used` under a service
that answers no query at all. -/
theorem skip_annotation_forces_used_witness :
    getUnusedExports svcNone emptyProgram "x.ts" [FileItem.candidate candSkip] 0 = ([], true) :=
  (skip_annotation_forces_used candSkip (by decide)).1 svcNone emptyProgram "x.ts" 0

/-! Helper lemmas about the removal driver. -/

theorem removeLoop_star_isUsed (env : DriverEnv) (file : String)
    (hstar : ∀ st view, env.parse st file = some view → FileItem.starReexport ∈ view.items) :
    ∀ (fuel : Nat) (store : FileStore) (content : List Char)
      (st : FileStore) (ct : List Char) (u : Bool) (evs : List RemovalEvent),
      removeLoop env file fuel store content = some (st, ct, u, evs) → u = true := by
  intro fuel
  induction fuel with
  | zero =>
    intro store content st ct u evs h
    exact absurd h (by simp [removeLoop])
  | succ fuel ih =>
    intro store content st ct u evs h
    simp only [removeLoop] at h
    split at h
    · exact absurd h (by simp)
    next r hscan =>
      have hru : r.isUsed = true := by
        have hscan' : (env.parse store file).map (fun view =>
            getTextChanges (envService env store) (envProgram env store) file
              view.items env.ancestryFuel) = some r := hscan
        obtain ⟨view, hview, hr⟩ := Option.map_eq_some'.mp hscan'
        rw [← hr]
        exact getUnusedExports_star (envService env store) (envProgram env store) file
          view.items env.ancestryFuel (hstar store view hview)
      split at h
      · simp only [Option.some.injEq, Prod.mk.injEq] at h
        obtain ⟨-, -, hu, -⟩ := h
        rw [← hu]
        exact hru
      · split at h
        · exact absurd h (by simp)
        next st' ct' u' evs' hrl =>
          simp only [Option.some.injEq, Prod.mk.injEq] at h
          obtain ⟨-, -, hu, -⟩ := h
          rw [← hu]
          exact ih _ _ _ _ _ _ hrl

/-- C3: a target file whose every parse contains a wildcard re-export
(`export * from "..."`) is never deleted by `removeUnusedExport`'s
file-deletion path, whatever the `deleteUnusedFile` flag and whatever the usage
of its other exports: no deletion is notified and the file stays in the
store. -/
theorem wildcard_file_never_deleted (env : DriverEnv) (deleteUnusedFile : Bool)
    (loopFuel : Nat) (store : FileStore) (file : String)
    (res : FileStore × List TrackerEvent)
    (hstar : ∀ st view, env.parse st file = some view → FileItem.starReexport ∈ view.items)
    (hrun : processFile env deleteUnusedFile loopFuel store file = some res) :
    (∀ e ∈ res.2, e ≠ TrackerEvent.delete file) ∧
      ((store file).isSome = true → (res.1 file).isSome = true) := by
  unfold processFile at hrun
  cases hp : env.parse store file with
  | none =>
    rw [hp] at hrun
    simp only [Option.some.injEq] at hrun
    subst hrun
    exact ⟨by simp, fun h => h⟩
  | some view =>
    rw [hp] at hrun
    cases hrl : removeLoop env file loopFuel store ((store file).getD []) with
    | none => rw [hrl] at hrun; cases hrun
    | some q =>
      obtain ⟨st, ct, u, revs⟩ := q
      rw [hrl] at hrun
      have hu : u = true := removeLoop_star_isUsed env file hstar loopFuel store _ st ct u revs hrl
      subst hu
      simp only [Bool.not_true, Bool.false_and, Bool.false_eq_true, if_false] at hrun
      simp only [Option.some.injEq] at hrun
      subst hrun
      constructor
      · intro e he
        simp only [List.cons_append, List.mem_cons, List.mem_append, List.mem_map,
          List.mem_singleton] at he
        rcases he with rfl | ⟨ev, -, rfl⟩ | rfl | h0 <;> simp_all
      · intro _
        simp [storeSet]

/-- Witness for C3: concrete wildcard file, deletion requested, all exports
unused — the file survives and no deletion is notified. -/
theorem wildcard_file_never_deleted_witness :
    (∀ e ∈ ((processFile envStar true 1 storeStar "s.ts").get (by decide)).2,
        e ≠ TrackerEvent.delete "s.ts") ∧
      ((storeStar "s.ts").isSome = true →
        (((processFile envStar true 1 storeStar "s.ts").get (by decide)).1 "s.ts").isSome =
          true) :=
  wildcard_file_never_deleted envStar true 1 storeStar "s.ts" _
    (fun st view h => by
      have he : envStar.parse st "s.ts" = some viewStar := rfl
      rw [he] at h
      injection h with h
      subst h
      decide)
    (Option.some_get _).symm

/-- C9 (counterexample): with deletion requested and an unused file, processing
completes with the trace `[start, delete]` — no `session-end` notification is
fired, contradicting the claim that session-end fires when processing of the
file completes. -/
theorem tracker_missing_end_counterexample :
    (processFile envNoExports true 1 storeNoExports "a.ts").map (fun r => r.2) =
      some [TrackerEvent.start "a.ts" plainText, TrackerEvent.delete "a.ts"] ∧
    TrackerEvent.endSession "a.ts" ∉
      [TrackerEvent.start "a.ts" plainText, TrackerEvent.delete "a.ts"] := by
  decide

/-- C9 (amended): for every processed target file the trace is bounded:
either the file was skipped (empty trace), or it is `session-start` first,
then the removal notifications in firing order, and finally exactly one of
`session-end` (file kept) or `file-deleted` (file deleted; no session-end is
fired on that path). -/
theorem tracker_trace_shape (env : DriverEnv) (deleteUnusedFile : Bool) (loopFuel : Nat)
    (store : FileStore) (file : String) (trace : List TrackerEvent)
    (hrun : (processFile env deleteUnusedFile loopFuel store file).map (fun r => r.2) =
      some trace) :
    trace = [] ∨
      ∃ text removals,
        (∀ e ∈ removals, ∃ p code, e = TrackerEvent.removeExport file p code) ∧
        (trace = TrackerEvent.start file text :: removals ++ [TrackerEvent.endSession file] ∨
         trace = TrackerEvent.start file text :: removals ++ [TrackerEvent.delete file]) := by
  unfold processFile at hrun
  split at hrun
  · simp only [Option.map_some', Option.some.injEq] at hrun
    exact Or.inl hrun.symm
  next view hp =>
    split at hrun
    · simp at hrun
    next st ct u revs hrl =>
      refine Or.inr ⟨view.fullText,
        revs.map (fun ev => TrackerEvent.removeExport file ev.position ev.code), ?_, ?_⟩
      · intro e he
        obtain ⟨ev, -, rfl⟩ := List.mem_map.mp he
        exact ⟨ev.position, ev.code, rfl⟩
      · split at hrun
        · right
          simp only [Option.map_some', Option.some.injEq] at hrun
          exact hrun.symm
        · left
          simp only [Option.map_some', Option.some.injEq] at hrun
          exact hrun.symm

/-- Witness for C9 (amended): the concrete deletion trace fits the bounded
session shape. -/
theorem tracker_trace_shape_witness :
    ([TrackerEvent.start "a.ts" plainText, TrackerEvent.delete "a.ts"] :
        List TrackerEvent) = [] ∨
      ∃ text removals,
        (∀ e ∈ removals, ∃ p code, e = TrackerEvent.removeExport "a.ts" p code) ∧
        ([TrackerEvent.start "a.ts" plainText, TrackerEvent.delete "a.ts"] =
            TrackerEvent.start "a.ts" text :: removals ++ [TrackerEvent.endSession "a.ts"] ∨
         [TrackerEvent.start "a.ts" plainText, TrackerEvent.delete "a.ts"] =
            TrackerEvent.start "a.ts" text :: removals ++ [TrackerEvent.delete "a.ts"]) :=
  tracker_trace_shape envNoExports true 1 storeNoExports "a.ts" _ (by decide)

/-- C8 (counterexample): a stabilized file (its scan collects no unused
candidates) processed with `deleteUnusedFile = true` and an overall-used flag
of `false` is removed from the store: zero removal edits are produced, yet the
final store content is not identical to the initial one. -/
theorem stabilized_run_counterexample :
    (getUnusedExports (envService envNoExports storeNoExports)
        (envProgram envNoExports storeNoExports) "a.ts" viewNoExports.items
        envNoExports.ancestryFuel).1 = [] ∧
    (processFile envNoExports true 1 storeNoExports "a.ts").map
        (fun r => (r.1 "a.ts", r.2)) =
      some (none, [TrackerEvent.start "a.ts" plainText, TrackerEvent.delete "a.ts"]) ∧
    storeNoExports "a.ts" = some plainText := by
  decide

/-- C8 (amended): running the driver (code-fix pass disabled) on a file whose
Scanning pass collects no unused candidates produces zero removal edits and,
provided file deletion is not requested, leaves the file's stored content
identical to its content before the run. -/
theorem stabilized_no_delete_idempotent (env : DriverEnv) (store : FileStore)
    (file : String) (view : FileView) (c0 : List Char) (loopFuel : Nat)
    (hparse : env.parse store file = some view)
    (hstable : (getUnusedExports (envService env store) (envProgram env store) file
        view.items env.ancestryFuel).1 = [])
    (hc : store file = some c0) :
    (processFile env false (loopFuel + 1) store file).map (fun r => (r.1 file, r.2)) =
      some (some c0,
        [TrackerEvent.start file view.fullText, TrackerEvent.endSession file]) := by
  have hgtc : getTextChanges (envService env store) (envProgram env store) file
      view.items env.ancestryFuel =
      ⟨[], true, (getUnusedExports (envService env store) (envProgram env store) file
          view.items env.ancestryFuel).2, []⟩ := by
    simp only [getTextChanges, hstable]
    rfl
  have hscan : scanFile env store file =
      some ⟨[], true, (getUnusedExports (envService env store) (envProgram env store) file
          view.items env.ancestryFuel).2, []⟩ := by
    unfold scanFile
    rw [hparse, Option.map_some', hgtc]
  have hcontent : (store file).getD [] = c0 := by rw [hc]; rfl
  have hloop : removeLoop env file (loopFuel + 1) store ((store file).getD []) =
      some (storeSet store file c0, c0,
        (getUnusedExports (envService env store) (envProgram env store) file
          view.items env.ancestryFuel).2, []) := by
    simp only [removeLoop, hscan, hcontent, applyTextChanges_nil]
    simp
  unfold processFile
  split
  · simp_all
  next v hp2 =>
    have hv : v = view := by simp_all
    subst hv
    rw [hloop]
    simp [storeSet]

/-- Witness for C8 (amended): the export-less file kept (no deletion requested)
retains its exact content with trace `[start, end]`. -/
theorem stabilized_no_delete_idempotent_witness :
    (processFile envNoExports false 1 storeNoExports "a.ts").map
        (fun r => (r.1 "a.ts", r.2)) =
      some (some plainText,
        [TrackerEvent.start "a.ts" viewNoExports.fullText, TrackerEvent.endSession "a.ts"]) :=
  stabilized_no_delete_idempotent envNoExports storeNoExports "a.ts" viewNoExports plainText 0
    (by decide) (by decide) (by decide)

/-- C4 (counterexample): a plain exported function whose reference set holds
three same-file occurrences (total count 3, not the baseline 1) is still
counted unused by `getUnusedExports`, refuting the claim that a candidate is
unused exactly when its total reference count equals its mandatory baseline. -/
theorem count_baseline_counterexample :
    (getUnusedExports svcSameFileThree emptyProgram "a.ts"
        [FileItem.candidate candFunction] 0).1 = [candFunction] ∧
    (refsSameFileThree.flatMap ReferencedSymbol.references).length = 3 := by
  decide

/-- C4 (amended): the total-count-equals-baseline criterion is the one of
`getFirstUnusedExport` in the `removeExport` module — given the mandatory
baseline is present, a specifier is selected iff its total count is exactly 2
and any other candidate iff it is exactly 1 — while `getUnusedExports` decides
by the outside-file partition alone, so a plain candidate all of whose
reference entries are same-file is unused whatever its total count. -/
theorem count_baseline_amended :
    (∀ (service : LanguageService) (fileName : String) (c : CandidateNode)
       (refs : List ReferencedSymbol),
       isClassNode c.node = false →
       includesStr c.leadingComment IGNORE_COMMENT = false →
       findReferences fileName service c.node = some refs →
       isSpecifierNode c.node = true →
       2 ≤ (refs.flatMap ReferencedSymbol.references).length →
       (RemoveExportModule.getFirstUnusedExport service fileName [c] = some c ↔
         (refs.flatMap ReferencedSymbol.references).length = 2)) ∧
    (∀ (service : LanguageService) (fileName : String) (c : CandidateNode)
       (refs : List ReferencedSymbol),
       isClassNode c.node = false →
       includesStr c.leadingComment IGNORE_COMMENT = false →
       findReferences fileName service c.node = some refs →
       isSpecifierNode c.node = false →
       (RemoveExportModule.getFirstUnusedExport service fileName [c] = some c ↔
         (refs.flatMap ReferencedSymbol.references).length = 1)) ∧
    (∀ (service : LanguageService) (program : ProgramModel) (fileName : String)
       (fuel : Nat) (c : CandidateNode) (refs : List ReferencedSymbol),
       isPlainDeclarationOrDefault c.node = true →
       includesStr c.leadingComment IGNORE_COMMENT = false →
       findReferences fileName service c.node = some refs →
       (∀ v ∈ refs, v.definitionFileName = fileName) →
       (getUnusedExports service program fileName [FileItem.candidate c] fuel).1 = [c]) := by
  refine ⟨?_, ?_, ?_⟩
  · intro service fileName c refs hcl hskip hrefs hspec h2
    by_cases h2eq : (refs.flatMap ReferencedSymbol.references).length = 2
    · simp [RemoveExportModule.getFirstUnusedExport, List.findSome?, hcl, hskip, hrefs,
        hspec, h2eq]
    · have h1 : (refs.flatMap ReferencedSymbol.references).length ≠ 1 := by omega
      simp at h2eq h1
      simp [RemoveExportModule.getFirstUnusedExport, List.findSome?, hcl, hskip, hrefs,
        hspec, h2eq, h1]
  · intro service fileName c refs hcl hskip hrefs hspec
    by_cases h1eq : (refs.flatMap ReferencedSymbol.references).length = 1
    · simp [RemoveExportModule.getFirstUnusedExport, List.findSome?, hcl, hskip, hrefs,
        hspec, h1eq]
    · simp at h1eq
      simp [RemoveExportModule.getFirstUnusedExport, List.findSome?, hcl, hskip, hrefs,
        hspec, h1eq]
  · intro service program fileName fuel c refs hplain hskip hrefs hsame
    rw [getUnusedExports_singleton_plain service program fileName fuel c refs hplain hskip
      hrefs]
    have hfilter : (refs.filter fun v => v.definitionFileName != fileName) = [] := by
      rw [List.filter_eq_nil_iff]
      intro v hv
      simp [hsame v hv]
    simp [plainVerdict, hfilter]

/-- Witness for C4 (amended): a specifier with exactly the two mandatory
references is selected by `getFirstUnusedExport`, and a plain candidate with
three same-file references is unused in `getUnusedExports`. -/
theorem count_baseline_amended_witness :
    RemoveExportModule.getFirstUnusedExport svcTwo "a.ts" [candSpecifierTwo] =
        some candSpecifierTwo ∧
    (getUnusedExports svcSameFileThree emptyProgram "a.ts"
        [FileItem.candidate candFunction] 0).1 = [candFunction] :=
  ⟨(count_baseline_amended.1 svcTwo "a.ts" candSpecifierTwo refsTwo (by decide) (by decide)
      (by decide) (by decide) (by decide)).mpr (by decide),
   count_baseline_amended.2.2 svcSameFileThree emptyProgram "a.ts" 0 candFunction
     refsSameFileThree (by decide) (by decide) (by decide) (by decide)⟩

/-- Every batch built by the edit loop holds at most one change with non-empty
replacement text; the clause regeneration for a specifier among siblings is the
only edit kind with non-empty replacement, and producing it aborts the loop. -/
theorem gtcNodes_regen_count : ∀ nodes : List CandidateNode,
    ((gtcNodes nodes).1.filter fun tc => !tc.newText.isEmpty).length ≤ 1 := by
  intro nodes
  induction nodes with
  | nil => simp [gtcNodes]
  | cons c rest ih =>
    obtain ⟨node, cm⟩ := c
    cases node with
    | exportSpecifier spec =>
      by_cases h1 : spec.parentDecl.elements.length = 1
      · simpa [gtcNodes, h1] using ih
      · simp only [gtcNodes, if_neg h1]
        exact (List.length_filter_le _ _).trans (by simp)
    | variableStatement g ds => simpa [gtcNodes, markerChange] using ih
    | functionDeclaration g a =>
      cases a with
      | none => simpa [gtcNodes, markerChange] using ih
      | some f => simpa [gtcNodes] using ih
    | interfaceDeclaration g => simpa [gtcNodes, markerChange] using ih
    | typeAliasDeclaration g => simpa [gtcNodes, markerChange] using ih
    | classDeclaration g a =>
      cases a with
      | none => simpa [gtcNodes, markerChange] using ih
      | some f => simpa [gtcNodes] using ih
    | exportAssignment g dk => simpa [gtcNodes] using ih

/-- C5: on `export \x7b a, b, c \x7d;` with only `b` unused, one driver pass
yields `export \x7b a, c \x7d;` (remaining specifiers in order); with `a`, `b`
and `c` all unused, one driver pass removes the whole statement; and in every
edit batch at most one multi-item-clause structural regeneration (the only
change kind with non-empty replacement text) is applied, the remainder being
deferred to the next Scanning pass. -/
theorem multi_specifier_batch :
    ((processFile envOnlyB false 3 storeABC "f.ts").map fun r => r.1 "f.ts") =
        some (some textAC) ∧
    ((processFile envAllUnused false 3 storeABC "f.ts").map fun r => r.1 "f.ts") =
        some (some ([] : List Char)) ∧
    ∀ nodes : List CandidateNode,
      ((gtcNodes nodes).1.filter fun tc => !tc.newText.isEmpty).length ≤ 1 :=
  ⟨by decide, by decide, gtcNodes_regen_count⟩

/-- C7: for a candidate on the named-declaration path, the generated edit is
exactly the deletion of the modifier span (the export marker and, for a default
export, the default marker), and applying it leaves every character before and
after that span unchanged. -/
theorem marker_only_removed (c : CandidateNode) (g : NamedDeclGeom)
    (hpath : namedDeclPath c.node = some g)
    (hle : g.syntaxListStart ≤ g.nextSiblingStart) :
    gtcNodes [c] = ([markerChange g], [markerEvent g], false) ∧
      ∀ content : List Char,
        applyTextChanges content [markerChange g] =
          content.take g.syntaxListStart ++ content.drop g.nextSiblingStart := by
  constructor
  · obtain ⟨node, cm⟩ := c
    cases node with
    | variableStatement g' ds =>
      simp only [namedDeclPath, Option.some.injEq] at hpath
      subst hpath
      rfl
    | functionDeclaration g' a =>
      cases a with
      | none =>
        simp only [namedDeclPath, Option.some.injEq] at hpath
        subst hpath
        rfl
      | some f => simp [namedDeclPath] at hpath
    | interfaceDeclaration g' =>
      simp only [namedDeclPath, Option.some.injEq] at hpath
      subst hpath
      rfl
    | typeAliasDeclaration g' =>
      simp only [namedDeclPath, Option.some.injEq] at hpath
      subst hpath
      rfl
    | classDeclaration g' a =>
      cases a with
      | none =>
        simp only [namedDeclPath, Option.some.injEq] at hpath
        subst hpath
        rfl
      | some f => simp [namedDeclPath] at hpath
    | exportAssignment g' dk => simp [namedDeclPath] at hpath
    | exportSpecifier spec => simp [namedDeclPath] at hpath
  · intro content
    show applySingleChange content (markerChange g) = _
    simp only [applySingleChange, markerChange]
    rw [Nat.add_sub_cancel' hle]
    simp

/-- Witness for C7: removing `helper`'s export marker keeps the declaration
body intact. -/
theorem marker_only_removed_witness :
    gtcNodes [candHelper] = ([markerChange geomHelper], [markerEvent geomHelper], false) ∧
    applyTextChanges ("export function helper()\x7b\x7d".data) [markerChange geomHelper] =
      ("export function helper()\x7b\x7d".data).take 0 ++
        ("export function helper()\x7b\x7d".data).drop 7 :=
  ⟨(marker_only_removed candHelper geomHelper (by decide) (by decide)).1,
   (marker_only_removed candHelper geomHelper (by decide) (by decide)).2
     ("export function helper()\x7b\x7d".data)⟩

/-- C10: the reference query for a variable statement is made only at the first
variable declaration's position — the verdict is the same for any later
declarations — and a statement whose second variable is referenced from
another file is still classified unused, with its export-marker removal edit
generated. -/
theorem variable_statement_first_declaration_only :
    (∀ (fileName : String) (service : LanguageService) (g : NamedDeclGeom)
       (d : Nat) (rest rest' : List Nat),
       findReferences fileName service (SupportedNode.variableStatement g (d :: rest)) =
         findReferences fileName service (SupportedNode.variableStatement g (d :: rest'))) ∧
    getUnusedExports svcVarMulti emptyProgram "a.ts" [FileItem.candidate candVarMulti] 0 =
      ([candVarMulti], false) ∧
    (getTextChanges svcVarMulti emptyProgram "a.ts"
        [FileItem.candidate candVarMulti] 0).changes = [markerChange geomVar] :=
  ⟨fun _ _ _ _ _ _ => rfl, by decide, by decide⟩

end TsRemoveUnused
